import Mathlib

/-!
Verification of the mini-maxit/file-storage task-directory manager.

The Go service (internal/api/services/task_service.go together with the
taskutils package) is shallowly embedded here.  File and directory names are
modelled as `List Char` (Go strings are byte strings; all names involved are
ASCII), file contents as `List Nat` (opaque byte blobs), directories as
association lists from name to content, and the managed on-disk tree rooted at
`tasks/task{id}` as the structure `TaskDir`.  Filesystem primitives
(`os.MkdirAll`, `os.WriteFile`, `os.RemoveAll`, backup copies) are modelled as
total state transformers: disk-level I/O failures are not modelled, so the
error branches of the Go code that only fire on I/O failure are absent.  Go map
iteration order is unspecified; maps handed to the service are modelled as
association lists and iterated in list order.
-/

namespace FileStorage

/-- A file or directory name (a Go string), as a list of characters. -/
abbrev Name := List Char

/-- Opaque file contents (a Go `[]byte`). -/
abbrev Bytes := List Nat

/-- A flat directory: an association list from file name to contents. -/
abbrev Dir := List (Name × Bytes)

/-! ### Name helpers mirroring Go's `path/filepath` and `strings` functions -/

/-- `filepath.Base`: the part of the path after the last `/`.  (Go's `Base`
additionally special-cases empty paths and trailing slashes; no path handed to
the service ends in a slash, and on slash-free names both agree.) -/
def baseName (s : Name) : Name :=
  (s.reverse.takeWhile (fun c => c ≠ '/')).reverse

/-- `filepath.Ext`: the suffix of the base name starting at its final dot,
empty if the base name has no dot. -/
def extensionOf (s : Name) : Name :=
  let b := baseName s
  if b.contains '.' then '.' :: (b.reverse.takeWhile (fun c => c ≠ '.')).reverse
  else []

/-- `strings.ToLower` (the names involved are ASCII, where Go and Lean
lower-casing agree). -/
def lowerName (s : Name) : Name := s.map Char.toLower

/-- The decimal value of a digit string, as computed by `strconv.Atoi`
(which also accepts leading zeros).  `Atoi`'s overflow failure cannot occur in
the model, where numbers are unbounded. -/
def digitsVal (l : List Char) : Nat :=
  l.foldl (fun n c => n * 10 + (c.toNat - 48)) 0

/-- The character for a decimal digit. -/
def digitChar (d : Nat) : Char := Char.ofNat (48 + d)

/-- Decimal printing, fuel-indexed for structural recursion. -/
def natToDigitsAux : Nat → Nat → List Char
  | 0, _ => []
  | fuel + 1, n =>
    if n < 10 then [digitChar n]
    else natToDigitsAux fuel (n / 10) ++ [digitChar (n % 10)]

/-- Decimal printing of a natural number, as produced by Go's `fmt.Sprintf`
with the `%d` verb (used to build the `task{id}`, `user{id}`,
`submission{n}`, `{n}.in`, `{n}.out` names). -/
def natToDigits (n : Nat) : List Char := natToDigitsAux (n + 1) n

/-- Go regexp match `^(\d+)\.xyz$` followed by `strconv.Atoi` on the captured
group, where `suffix` is the literal `.xyz` part: the name must consist of a
non-empty run of ASCII digits followed by `suffix`. -/
def parseNum (suffix name : Name) : Option Nat :=
  let stem := name.take (name.length - suffix.length)
  if (name == stem ++ suffix) && (!stem.isEmpty) && stem.all Char.isDigit
  then some (digitsVal stem) else none

/-! ### Association-list primitives (the model of writing files into a
directory: `os.WriteFile` creates the file or truncates an existing one) -/

/-- Look a name up in a directory-like association list. -/
def lookupName {α : Type} : List (Name × α) → Name → Option α
  | [], _ => none
  | (k', v) :: rest, k => if k' = k then some v else lookupName rest k

/-- Write semantics: replace the first entry with the given name, or append a
new entry at the end. -/
def insertName {α : Type} : List (Name × α) → Name → α → List (Name × α)
  | [], k, v => [(k, v)]
  | (k', v') :: rest, k, v =>
    if k' = k then (k, v) :: rest else (k', v') :: insertName rest k v

/-! ### Path and name constants used by the service -/

def inputPfx : Name := "src/input/".toList

def outputPfx : Name := "src/output/".toList

def descKey : Name := "src/description.pdf".toList

def descName : Name := "description.pdf".toList

def descDotPfx : Name := "description.".toList

def pdfExt : Name := ".pdf".toList

def inSuffix : Name := ".in".toList

def outSuffix : Name := ".out".toList

def compileErrName : Name := "compile-error.err".toList

def userPfx : Name := "user".toList

def submissionPfx : Name := "submission".toList

def solutionBase : Name := "solution".toList

/-! ### Data model of the on-disk tree rooted at `tasks/task{id}`

`TaskDir` is the directory `tasks/task{id}`: `descr` is `src/description.pdf`,
`input`/`output` are the directories `src/input` and `src/output` (`none` =
directory absent), and `submissions` is the `submissions/` directory, an
association list from user-directory name (`user{uid}`) to its entries.
A submission directory holds its direct files (`solution.{ext}`) and an
optional `output/` directory. -/

structure SubmissionDir where
  files : Dir
  output : Option Dir
deriving DecidableEq

inductive UserEntry where
  | dirE (name : Name) (sub : SubmissionDir)
  | fileE (name : Name) (content : Bytes)
deriving DecidableEq

abbrev UserDir := List UserEntry

structure TaskDir where
  descr : Option Bytes
  input : Option Dir
  output : Option Dir
  submissions : Option (List (Name × UserDir))
deriving DecidableEq

/-! ### Errors (one constructor per distinct error return in the Go source) -/

/-- Errors of `TaskUtils.ValidateFiles`. -/
inductive ValidateErr where
  | inputFormat (base : Name)
  | duplicateInput (n : Nat)
  | outputFormat (base : Name)
  | duplicateOutput (n : Nat)
  | descriptionExtension
  | unrecognizedPath (p : Name)
  | countMismatch
  | missingDescription
  | nonSequential (n : Nat)
deriving DecidableEq

/-- Errors of `TaskService.CreateTaskDirectory` (the branches reachable when
disk I/O succeeds). -/
inductive CreateErr where
  | directoryAlreadyExists
  | validation (e : ValidateErr)
deriving DecidableEq

/-- Filesystem events of interest during `CreateTaskDirectory`, in execution
order: `TaskUtils.BackupDirectory`, `os.RemoveAll` of the task directory,
`TaskUtils.RestoreDirectory`, and removal of the backup directory. -/
inductive Event where
  | backup
  | removeAll
  | restore
  | discard
deriving DecidableEq

structure CreateResult where
  err : Option CreateErr
  state : Option TaskDir
  events : List Event
deriving DecidableEq

/-! ### TaskUtils.ValidateFiles -/

/-- The loop body of `ValidateFiles`: classify each entry as input file,
output file, or description, accumulating the input numbers, output numbers
and the has-description flag.  (Error messages' data is carried in the error
constructors; iteration order is the list order of the model.) -/
def validateLoop : List (Name × Bytes) → List Nat → List Nat → Bool →
    Except ValidateErr (List Nat × List Nat × Bool)
  | [], ins, outs, hasD => .ok (ins, outs, hasD)
  | (fileName, _) :: rest, ins, outs, hasD =>
    let base := baseName fileName
    if inputPfx.isPrefixOf fileName then
      match parseNum inSuffix base with
      | none => .error (.inputFormat base)
      | some n =>
        if ins.contains n then .error (.duplicateInput n)
        else validateLoop rest (ins ++ [n]) outs hasD
    else if outputPfx.isPrefixOf fileName then
      match parseNum outSuffix base with
      | none => .error (.outputFormat base)
      | some n =>
        if outs.contains n then .error (.duplicateOutput n)
        else validateLoop rest ins (outs ++ [n]) hasD
    else if base == descName || descDotPfx.isPrefixOf base then
      if extensionOf fileName ≠ pdfExt then .error .descriptionExtension
      else validateLoop rest ins outs true
    else .error (.unrecognizedPath fileName)

/-- The final sequential-numbering loop of `ValidateFiles`:
`for i := 1; i <= len(inputFiles); i++`. -/
def seqCheck (ins outs : List Nat) : Option ValidateErr :=
  if (List.range ins.length).all
      (fun i => ins.contains (i + 1) && outs.contains (i + 1))
  then none
  else some (.nonSequential ins.length)

/-- `TaskUtils.ValidateFiles`. -/
def validateFiles (files : List (Name × Bytes)) : Option ValidateErr :=
  match validateLoop files [] [] false with
  | .error e => some e
  | .ok (ins, outs, hasD) =>
    if ins.length ≠ outs.length then some .countMismatch
    else if !hasD then some .missingDescription
    else seqCheck ins outs

/-! ### TaskService.CreateTaskDirectory -/

/-- `TaskUtils.SaveFiles`: write each `src/input/...` entry into the input
directory and each `src/output/...` entry into the output directory under its
base name; other entries are skipped. -/
def saveFiles : Dir → Dir → List (Name × Bytes) → Dir × Dir
  | inDir, outDir, [] => (inDir, outDir)
  | inDir, outDir, (fileName, content) :: rest =>
    if inputPfx.isPrefixOf fileName then
      saveFiles (insertName inDir (baseName fileName) content) outDir rest
    else if outputPfx.isPrefixOf fileName then
      saveFiles inDir (insertName outDir (baseName fileName) content) rest
    else saveFiles inDir outDir rest

/-- The part of `CreateTaskDirectory` after the existence/overwrite check: at
this point the task directory is absent (either it never existed or it was
just removed), `backup` holds the snapshot taken by `BackupDirectory` if one
was taken (`shouldRestore` in the Go code), and `evs` records the events so
far.  `CreateDirectoryStructure` builds the fresh `src/`, `src/input/`,
`src/output/` skeleton, then validation, the description write, and
`SaveFiles` run in the order of the Go code. -/
def createRest (backup : Option TaskDir) (files : List (Name × Bytes))
    (evs : List Event) : CreateResult :=
  let st1 : TaskDir :=
    { descr := none, input := some [], output := some [], submissions := none }
  match validateFiles files with
  | some e =>
    match backup with
    | some b =>
      { err := some (.validation e), state := some b, events := evs ++ [.restore] }
    | none => { err := some (.validation e), state := some st1, events := evs }
  | none =>
    let st2 := { st1 with descr := some ((lookupName files descKey).getD []) }
    let saved := saveFiles (st2.input.getD []) (st2.output.getD []) files
    let st3 := { st2 with input := some saved.1, output := some saved.2 }
    match backup with
    | some _ => { err := none, state := some st3, events := evs ++ [.discard] }
    | none => { err := none, state := some st3, events := evs }

/-- `TaskService.CreateTaskDirectory`, acting on the state of the directory
`tasks/task{taskID}` for the call's task id (`none` = directory absent).  If
the directory exists and `overwrite` is set, it is backed up and removed
before anything else; if it exists and `overwrite` is not set, the call fails
without touching anything. -/
def CreateTaskDirectory (st : Option TaskDir) (files : List (Name × Bytes))
    (overwrite : Bool) : CreateResult :=
  match st with
  | some old =>
    if overwrite then createRest (some old) files [.backup, .removeAll]
    else { err := some .directoryAlreadyExists, state := some old, events := [] }
  | none => createRest none files []

/-! ### TaskService.CreateUserSubmission -/

/-- Errors of `CreateUserSubmission` (branches reachable when plain disk I/O
succeeds; `mkdirFailed` is the `os.MkdirAll` failure that occurs when the
computed `submission{n}` name is taken by a plain file). -/
inductive SubmitErr where
  | taskNotFound
  | noExtension
  | extensionNotAllowed (ext : Name)
  | mkdirFailed
deriving DecidableEq

/-- Entries of a user directory that are submission directories, as found by
`os.Stat`/`os.ReadDir`. -/
def findSubDir : UserDir → Name → Option SubmissionDir
  | [], _ => none
  | .dirE n s :: rest, nm => if n = nm then some s else findSubDir rest nm
  | .fileE _ _ :: rest, nm => findSubDir rest nm

/-- Whether the user directory holds a plain file of the given name. -/
def hasFileEntry (u : UserDir) (nm : Name) : Bool :=
  u.any fun e => match e with
    | .fileE n _ => n = nm
    | .dirE _ _ => false

/-- Replace the submission directory of the given name, or append it. -/
def setSubDir : UserDir → Name → SubmissionDir → UserDir
  | [], nm, s => [.dirE nm s]
  | .dirE n s' :: rest, nm, s =>
    if n = nm then .dirE nm s :: rest else .dirE n s' :: setSubDir rest nm s
  | .fileE n c :: rest, nm, s => .fileE n c :: setSubDir rest nm s

/-- `TaskUtils.GetNextSubmissionNumber` without the `+ 1`: the number of
entries of the user directory that are directories whose name starts with
`submission`. -/
def countSubmissions (u : UserDir) : Nat :=
  (u.filter fun e => match e with
    | .dirE nm _ => submissionPfx.isPrefixOf nm
    | .fileE _ _ => false).length

/-- `TaskService.CreateUserSubmission` on the state of `tasks/task{taskID}`.
Returns the Go error (or `none` on success) together with the state after the
call; note that the `submissions/` and `submissions/user{userID}/` directories
are created *before* the extension checks, exactly as in the Go code. -/
def CreateUserSubmission (allowed : List Name) (st : Option TaskDir)
    (userID : Nat) (userFile : Bytes) (fileName : Name) :
    Option SubmitErr × Option TaskDir :=
  match st with
  | none => (some .taskNotFound, none)
  | some td =>
    -- ensure the submissions directory and the user directory exist
    let subs := td.submissions.getD []
    let uname := userPfx ++ natToDigits userID
    let userDir := (lookupName subs uname).getD []
    let td1 := { td with submissions := some (insertName subs uname userDir) }
    -- extension validation
    let ext := lowerName (extensionOf fileName)
    if ext = [] then (some .noExtension, some td1)
    else if !allowed.contains ext then (some (.extensionNotAllowed ext), some td1)
    else
      -- submission number allocation and creation
      let n := countSubmissions userDir + 1
      let sname := submissionPfx ++ natToDigits n
      if hasFileEntry userDir sname then (some .mkdirFailed, some td1)
      else
        let sub0 := (findSubDir userDir sname).getD { files := [], output := none }
        let sub1 := { sub0 with output := some (sub0.output.getD []) }
        let sub2 := { sub1 with files := insertName sub1.files (solutionBase ++ ext) userFile }
        (none, some { td1 with
          submissions := some (insertName (insertName subs uname userDir) uname
            (setSubDir userDir sname sub2)) })

/-! ### TaskService.StoreUserOutputs -/

/-- Errors of `StoreUserOutputs` (branches reachable when plain disk I/O
succeeds; `accessFailed` is the non-not-exist `os.Stat` failure on the
`output/` path, which occurs when the submission entry is a plain file). -/
inductive StoreErr where
  | expectedDirUnreadable
  | submissionNotFound
  | outputsAlreadyStored
  | accessFailed
  | countMismatch (expected : Nat)
  | badFormat (base : Name)
  | duplicateNumber (n : Nat)
  | unexpectedNumber (n : Nat)
deriving DecidableEq

/-- The expected-output scan of `StoreUserOutputs`: over the entries of the
task's `src/output` directory, collect the numbers of entries matching
`^(\d+)\.out$` (a set in Go, here a list queried by membership) and count the
matching entries. -/
def expectedOutputData (entries : Dir) : List Nat × Nat :=
  entries.foldl
    (fun acc e =>
      match parseNum outSuffix e.1 with
      | some n => (acc.1 ++ [n], acc.2 + 1)
      | none => acc)
    ([], 0)

/-- The write loop of `StoreUserOutputs` over the provided outputs map:
validate each name, track seen numbers, and write each validated file into
the submission's output directory (`cur`).  On error, the files already
written stay written. -/
def storeLoop (expNums : List Nat) :
    List (Name × Bytes) → List Nat → Dir → Option StoreErr × Dir
  | [], _, cur => (none, cur)
  | (fileName, content) :: rest, seen, cur =>
    let base := baseName fileName
    match parseNum outSuffix base with
    | none => (some (.badFormat base), cur)
    | some num =>
      if seen.contains num then (some (.duplicateNumber num), cur)
      else if !expNums.contains num then (some (.unexpectedNumber num), cur)
      else storeLoop expNums rest (seen ++ [num]) (insertName cur base content)

/-- Rebuild the task state with one submission directory replaced. -/
def updateSub (td : TaskDir) (subs : List (Name × UserDir)) (uname : Name)
    (userDir : UserDir) (sname : Name) (sub : SubmissionDir) : TaskDir :=
  { td with
    submissions := some (insertName subs uname (setSubDir userDir sname sub)) }

/-- `StoreUserOutputs` after all the existence checks have passed: the
submission's `output/` directory exists and is empty.  Handles the
`compile-error.err` shortcut, the expected-count check, and the write loop. -/
def storeMain (td : TaskDir) (expected : Dir) (subs : List (Name × UserDir))
    (uname : Name) (userDir : UserDir) (sname : Name) (sub : SubmissionDir)
    (outputFiles : List (Name × Bytes)) : Option StoreErr × Option TaskDir :=
  let exp := expectedOutputData expected
  if outputFiles.length ≠ exp.2 then
    (some (.countMismatch exp.2),
      some (updateSub td subs uname userDir sname { sub with output := some [] }))
  else
    let res := storeLoop exp.1 outputFiles [] []
    (res.1, some (updateSub td subs uname userDir sname
      { sub with output := some res.2 }))

def storeCore (td : TaskDir) (expected : Dir) (subs : List (Name × UserDir))
    (uname : Name) (userDir : UserDir) (sname : Name) (sub : SubmissionDir)
    (outputFiles : List (Name × Bytes)) : Option StoreErr × Option TaskDir :=
  match outputFiles with
  | [(nm, c)] =>
    if nm = compileErrName then
      (none, some (updateSub td subs uname userDir sname
        { sub with output := some (insertName [] compileErrName c) }))
    else storeMain td expected subs uname userDir sname sub outputFiles
  | _ => storeMain td expected subs uname userDir sname sub outputFiles

/-- `TaskService.StoreUserOutputs` on the state of `tasks/task{taskID}`.
The checks run in the order of the Go code: read the task's `src/output`
directory, check the submission directory exists, check its `output/`
directory is absent or empty (creating it if absent), then the
`compile-error.err` shortcut, the count check, and the write loop. -/
def StoreUserOutputs (st : Option TaskDir) (userID subNum : Nat)
    (outputFiles : List (Name × Bytes)) : Option StoreErr × Option TaskDir :=
  match st with
  | none => (some .expectedDirUnreadable, none)
  | some td =>
    match td.output with
    | none => (some .expectedDirUnreadable, some td)
    | some expected =>
      let uname := userPfx ++ natToDigits userID
      let sname := submissionPfx ++ natToDigits subNum
      match td.submissions with
      | none => (some .submissionNotFound, some td)
      | some subs =>
        match lookupName subs uname with
        | none => (some .submissionNotFound, some td)
        | some userDir =>
          match findSubDir userDir sname with
          | none =>
            if hasFileEntry userDir sname then (some .accessFailed, some td)
            else (some .submissionNotFound, some td)
          | some sub =>
            match sub.output with
            | some entries =>
              if entries.length > 0 then (some .outputsAlreadyStored, some td)
              else storeCore td expected subs uname userDir sname sub outputFiles
            | none =>
              -- the output directory is created before any further check
              storeCore td expected subs uname userDir sname
                { sub with output := some [] } outputFiles

/-! ### Concrete fixture states -/

/-- The task of the spec's concrete scenario: expected outputs `1.out`, `2.out`
(and inputs `1.in`, `2.in`), with one fresh submission `submission1` of
`user1` whose `output/` directory is empty. -/
def td2 : TaskDir :=
  ⟨some [], some [("1.in".toList, []), ("2.in".toList, [])],
    some [("1.out".toList, []), ("2.out".toList, [])],
    some [("user1".toList,
      [.dirE "submission1".toList ⟨[("solution.py".toList, [])], some []⟩])]⟩

/-- `td2` with the submission's `output/` directory holding `out`. -/
def td2' (out : Dir) : TaskDir :=
  ⟨some [], some [("1.in".toList, []), ("2.in".toList, [])],
    some [("1.out".toList, []), ("2.out".toList, [])],
    some [("user1".toList,
      [.dirE "submission1".toList ⟨[("solution.py".toList, [])], some out⟩])]⟩

/-- A freshly created empty task directory (no submissions yet). -/
def freshTd : TaskDir := ⟨some [], some [], some [], none⟩

/-- A task with no expected outputs and one fresh submission of `user1`. -/
def td0 : TaskDir :=
  ⟨some [], some [], some [],
    some [("user1".toList,
      [.dirE "submission1".toList ⟨[("solution.py".toList, [])], some []⟩])]⟩

/-! ### Statement helpers (compositions of the model functions) -/

/-- The user directory name `user{uid}`. -/
def unameOf (uid : Nat) : Name := userPfx ++ natToDigits uid

/-- The user's directory inside a possibly-absent `submissions/` directory
(both absences read as empty, as the Go code creates them on demand). -/
def userDirIn (subsOpt : Option (List (Name × UserDir))) (uid : Nat) : UserDir :=
  (lookupName (subsOpt.getD []) (unameOf uid)).getD []

/-- The name `submission{n}` with `n = 1 + count(existing submission
directories)` — the number `GetNextSubmissionNumber` allocates. -/
def nextSname (u : UserDir) : Name :=
  submissionPfx ++ natToDigits (countSubmissions u + 1)


/-- The inbound files map of the round-trip scenario: one description entry
plus `src/input/{k}.in` and `src/output/{k}.out` for `k = 1..N` (in a fixed
list order, standing for one iteration order of the Go map). -/
def roundTripFiles (N : Nat) (d : Bytes) (ic oc : Nat → Bytes) :
    List (Name × Bytes) :=
  (descKey, d) ::
    (((List.range' 1 N).map fun k =>
      (inputPfx ++ (natToDigits k ++ inSuffix), ic k)) ++
     ((List.range' 1 N).map fun k =>
      (outputPfx ++ (natToDigits k ++ outSuffix), oc k)))


/-! ### Basic lemmas about the helpers -/

theorem takeWhile_append_of_all {α : Type} (p : α → Bool) (l1 l2 : List α)
    (h : ∀ c ∈ l1, p c = true) :
    (l1 ++ l2).takeWhile p = l1 ++ l2.takeWhile p := by
  induction l1 with
  | nil => simp
  | cons a l ih =>
    simp only [List.cons_append, List.takeWhile_cons]
    rw [h a (by simp), ih (fun c hc => h c (by simp [hc]))]
    simp

theorem takeWhile_eq_self_of_all {α : Type} (p : α → Bool) (l : List α)
    (h : ∀ c ∈ l, p c = true) : l.takeWhile p = l := by
  have := takeWhile_append_of_all p l [] h
  simpa using this

/-- `baseName` after a directory part: everything before the last separator is
dropped. -/
theorem baseName_sep (q b : Name) (hb : ∀ c ∈ b, c ≠ '/') :
    baseName (q ++ '/' :: b) = b := by
  unfold baseName
  rw [List.reverse_append, List.reverse_cons]
  rw [List.append_assoc]
  rw [takeWhile_append_of_all _ b.reverse _
    (by intro c hc; simp only [List.mem_reverse] at hc; simp [hb c hc])]
  simp [List.takeWhile_cons]

/-- `baseName` of a slash-free name is the name itself. -/
theorem baseName_eq_self (b : Name) (hb : ∀ c ∈ b, c ≠ '/') :
    baseName b = b := by
  unfold baseName
  rw [takeWhile_eq_self_of_all _ b.reverse
    (by intro c hc; simp only [List.mem_reverse] at hc; simp [hb c hc])]
  exact b.reverse_reverse

/-! ### Decimal digits -/

theorem digitChar_isDigit : ∀ d < 10, (digitChar d).isDigit = true := by decide

theorem digitChar_toNat : ∀ d < 10, (digitChar d).toNat = 48 + d := by decide

theorem isDigit_ne_slash (c : Char) (h : c.isDigit = true) : c ≠ '/' := by
  intro he; subst he; exact absurd h (by decide)

theorem isDigit_ne_dot (c : Char) (h : c.isDigit = true) : c ≠ '.' := by
  intro he; subst he; exact absurd h (by decide)

theorem digitsVal_append_singleton (l : List Char) (c : Char) :
    digitsVal (l ++ [c]) = digitsVal l * 10 + (c.toNat - 48) := by
  unfold digitsVal
  rw [List.foldl_append]
  rfl

theorem natToDigitsAux_spec (fuel : Nat) : ∀ n < fuel,
    natToDigitsAux fuel n ≠ [] ∧
    (∀ c ∈ natToDigitsAux fuel n, c.isDigit = true) ∧
    digitsVal (natToDigitsAux fuel n) = n := by
  induction fuel with
  | zero => intro n h; omega
  | succ f ih =>
    intro n _
    by_cases h10 : n < 10
    · refine ⟨by simp [natToDigitsAux, h10], ?_, ?_⟩
      · intro c hc
        simp only [natToDigitsAux, if_pos h10, List.mem_singleton] at hc
        subst hc; exact digitChar_isDigit n h10
      · simp only [natToDigitsAux, if_pos h10]
        show digitsVal ([] ++ [digitChar n]) = n
        rw [digitsVal_append_singleton, digitChar_toNat n h10]
        simp [digitsVal]
    · have hdiv : n / 10 < f := by
        have h1 : n / 10 < n := Nat.div_lt_self (by omega) (by norm_num)
        omega
      obtain ⟨hne, hdig, hval⟩ := ih (n / 10) hdiv
      have hmod : n % 10 < 10 := Nat.mod_lt n (by norm_num)
      refine ⟨by simp [natToDigitsAux, h10], ?_, ?_⟩
      · intro c hc
        simp only [natToDigitsAux, if_neg h10, List.mem_append,
          List.mem_singleton] at hc
        rcases hc with hc | hc
        · exact hdig c hc
        · subst hc; exact digitChar_isDigit _ hmod
      · simp only [natToDigitsAux, if_neg h10]
        rw [digitsVal_append_singleton, hval, digitChar_toNat _ hmod]
        omega

theorem natToDigits_ne_nil (n : Nat) : natToDigits n ≠ [] :=
  (natToDigitsAux_spec (n + 1) n (by omega)).1

theorem natToDigits_all_digit (n : Nat) :
    ∀ c ∈ natToDigits n, c.isDigit = true :=
  (natToDigitsAux_spec (n + 1) n (by omega)).2.1

theorem digitsVal_natToDigits (n : Nat) : digitsVal (natToDigits n) = n :=
  (natToDigitsAux_spec (n + 1) n (by omega)).2.2

theorem natToDigits_injective (a b : Nat) (h : natToDigits a = natToDigits b) :
    a = b := by
  have ha := digitsVal_natToDigits a
  rw [h, digitsVal_natToDigits] at ha
  omega

theorem natToDigits_ne_slash (n : Nat) : ∀ c ∈ natToDigits n, c ≠ '/' :=
  fun c hc => isDigit_ne_slash c (natToDigits_all_digit n c hc)

/-- The numbered-name matcher accepts `digits ++ suffix` and recovers the
digits' value. -/
theorem parseNum_append (suffix ds : Name) (hne : ds ≠ [])
    (hd : ∀ c ∈ ds, c.isDigit = true) :
    parseNum suffix (ds ++ suffix) = some (digitsVal ds) := by
  unfold parseNum
  have hlen : (ds ++ suffix).length - suffix.length = ds.length := by simp
  rw [hlen, List.take_left]
  have h1 : (ds ++ suffix == ds ++ suffix) = true := by simp
  have h2 : (!ds.isEmpty) = true := by cases ds with
    | nil => exact absurd rfl hne
    | cons a t => rfl
  have h3 : ds.all Char.isDigit = true := by
    rw [List.all_eq_true]; exact hd
  simp only [h1, h2, h3, Bool.and_self, Bool.true_and, if_pos]

/-- `parseNum` applied to a printed number. -/
theorem parseNum_natToDigits (suffix : Name) (k : Nat) :
    parseNum suffix (natToDigits k ++ suffix) = some k := by
  rw [parseNum_append suffix (natToDigits k) (natToDigits_ne_nil k)
    (natToDigits_all_digit k), digitsVal_natToDigits]

/-! ### Claim C7 -/

/-- C7: a `CreateTaskDirectory` call with `overwrite = false` on an existing
task directory returns the directory-already-exists error, mutates nothing
(the state is returned exactly as it was, whatever files it holds), and
performs no backup/remove/restore/discard event. -/
theorem c7_reject_existing_no_overwrite (td : TaskDir)
    (files : List (Name × Bytes)) :
    CreateTaskDirectory (some td) files false =
      ⟨some .directoryAlreadyExists, some td, []⟩ := rfl

/-! ### Claim C1 -/

/-- C1 (counterexample): overwriting an existing task directory with an
invalid files map (here: the empty map, which fails validation with
missing-description) *does* back up the directory, *does* delete it, and
*does* invoke restore: the event trace is exactly backup, removeAll, restore.
This refutes the claim that no backup is taken, the directory is never
deleted, and no restore is invoked. -/
theorem c1_counterexample :
    CreateTaskDirectory (some freshTd) [] true =
      ⟨some (.validation .missingDescription), some freshTd,
        [.backup, .removeAll, .restore]⟩ ∧
    Event.backup ∈ (CreateTaskDirectory (some freshTd) [] true).events ∧
    Event.removeAll ∈ (CreateTaskDirectory (some freshTd) [] true).events ∧
    Event.restore ∈ (CreateTaskDirectory (some freshTd) [] true).events := by
  refine ⟨by decide, by decide, by decide, by decide⟩

/-- C1 (amended): validation runs only *after* the backup and the deletion of
the existing directory; on any `CreateTaskDirectory` call with
`overwrite = true` on an existing task directory whose files map fails
validation, a backup is taken, the directory is deleted, the skeleton is
rebuilt, and restore is invoked before the validation error is returned; the
restored final state equals the original one. -/
theorem c1_amended_backup_restore_on_invalid (td : TaskDir)
    (files : List (Name × Bytes)) (e : ValidateErr)
    (h : validateFiles files = some e) :
    CreateTaskDirectory (some td) files true =
      ⟨some (.validation e), some td, [.backup, .removeAll, .restore]⟩ := by
  show createRest (some td) files [.backup, .removeAll] = _
  unfold createRest
  rw [h]
  rfl

/-- Witness for C1's amended theorem at a concrete input. -/
theorem c1_witness :
    validateFiles [] = some .missingDescription ∧
    CreateTaskDirectory (some freshTd) [] true =
      ⟨some (.validation .missingDescription), some freshTd,
        [.backup, .removeAll, .restore]⟩ :=
  ⟨by decide,
    c1_amended_backup_restore_on_invalid freshTd [] .missingDescription (by decide)⟩

/-! ### Claim C2 -/

/-- C2 (counterexample): on the spec's concrete scenario (task with expected
outputs `1.out`, `2.out`, fresh submission), `StoreUserOutputs` with the
single entry `3.out` fails with the count-mismatch error (expected 2), not
with the unexpected-file-number error as claimed: the count check runs before
any per-file number check. -/
theorem c2_counterexample :
    (StoreUserOutputs (some td2) 1 1 [("3.out".toList, [7])]).1
      = some (.countMismatch 2) ∧
    ∀ m : Nat, (StoreUserOutputs (some td2) 1 1 [("3.out".toList, [7])]).1
      ≠ some (.unexpectedNumber m) := by
  refine ⟨by decide, ?_⟩
  intro m h
  rw [show (StoreUserOutputs (some td2) 1 1 [("3.out".toList, [7])]).1
    = some (.countMismatch 2) from by decide] at h
  exact StoreErr.noConfusion (Option.some.inj h)

/-- C2 (amended): on a task with expected outputs `{1.out, 2.out}` and a
fresh submission, storing `{1.out, 2.out}` succeeds; the single entry `1.out`
fails with count-mismatch (expected 2); the single entry `3.out` likewise
fails with count-mismatch (the count check precedes the number check); the
unexpected-file-number error arises when the count matches but a number is
outside the expected set, e.g. for `{1.out, 3.out}`. -/
theorem c2_amended_error_selection :
    (StoreUserOutputs (some td2) 1 1
      [("1.out".toList, [7]), ("2.out".toList, [8])]).1 = none ∧
    (StoreUserOutputs (some td2) 1 1 [("1.out".toList, [7])]).1
      = some (.countMismatch 2) ∧
    (StoreUserOutputs (some td2) 1 1 [("3.out".toList, [7])]).1
      = some (.countMismatch 2) ∧
    (StoreUserOutputs (some td2) 1 1
      [("1.out".toList, [7]), ("3.out".toList, [8])]).1
      = some (.unexpectedNumber 3) := by
  refine ⟨by decide, by decide, by decide, by decide⟩

/-! ### Claim C8 -/

/-- C8 (code evaluated at the failing input): `ValidateFiles` accepts a files
map with *two* description entries (`description.pdf` and
`extra/description.pdf`, both classified as description entries by base
name), because the implementation only tracks a boolean has-description flag —
contradicting the function's own doc comment ("ensures there is a single
description file") and the spec's "exactly one".  The zero-description half
of the claim does hold: a map with no description entry is rejected with the
missing-description error. -/
theorem c8_code_bug_eval :
    validateFiles [("description.pdf".toList, [1]),
      ("extra/description.pdf".toList, [2])] = none ∧
    (([("description.pdf".toList, ([1] : Bytes)),
      ("extra/description.pdf".toList, [2])].filter
        (fun f => descDotPfx.isPrefixOf (baseName f.1))).length = 2) ∧
    validateFiles [("src/input/1.in".toList, []), ("src/output/1.out".toList, [])]
      = some .missingDescription := by
  refine ⟨by decide, by decide, by decide⟩

/-! ### Claim C10 -/

/-- C10: `StoreUserOutputs` is not atomic on validation failure.  On the
`td2` scenario, the outputs map `{1.out, 3.out}` (in that iteration order)
passes the count check, writes `1.out`, and then fails with the
unexpected-file-number error for `3.out`, leaving `1.out` stored in the
submission's `output/` directory; every subsequent `StoreUserOutputs` call
for that submission — whatever its outputs map — then fails with the
outputs-already-stored error, leaving the state unchanged. -/
theorem c10_nonatomic_store :
    StoreUserOutputs (some td2) 1 1 [("1.out".toList, [7]), ("3.out".toList, [8])]
      = (some (.unexpectedNumber 3), some (td2' [("1.out".toList, [7])])) ∧
    ∀ outs2 : List (Name × Bytes),
      StoreUserOutputs (some (td2' [("1.out".toList, [7])])) 1 1 outs2
        = (some .outputsAlreadyStored, some (td2' [("1.out".toList, [7])])) := by
  refine ⟨by decide, fun outs2 => rfl⟩

/-! ### Claim C6 -/

/-- C6: for a submission whose `output/` directory exists and is empty, under
a task whose `src/output` directory is readable with *any* expected contents,
storing the single entry `compile-error.err` writes exactly that file into
the submission's `output/` directory and succeeds, bypassing all numbering
and count checks; nothing else in the state changes. -/
theorem c6_compile_error_shortcut (de : Option Bytes) (inp : Option Dir)
    (expected : Dir) (subs : List (Name × UserDir)) (uid n : Nat)
    (userDir : UserDir) (solFiles : Dir) (c : Bytes)
    (hu : lookupName subs (userPfx ++ natToDigits uid) = some userDir)
    (hs : findSubDir userDir (submissionPfx ++ natToDigits n)
      = some ⟨solFiles, some []⟩) :
    StoreUserOutputs (some ⟨de, inp, some expected, some subs⟩) uid n
      [(compileErrName, c)]
      = (none, some ⟨de, inp, some expected,
          some (insertName subs (userPfx ++ natToDigits uid)
            (setSubDir userDir (submissionPfx ++ natToDigits n)
              ⟨solFiles, some [(compileErrName, c)]⟩))⟩) := by
  simp only [StoreUserOutputs, hu, hs]
  simp [storeCore, updateSub, insertName]

/-- Witness for C6 at a concrete state (the `td2` scenario with expected
outputs `{1.out, 2.out}`, i.e. expected count 2, stored map size 1). -/
theorem c6_witness :
    StoreUserOutputs (some ⟨some [],
        some [("1.in".toList, []), ("2.in".toList, [])],
        some [("1.out".toList, []), ("2.out".toList, [])],
        some [("user1".toList, [UserEntry.dirE "submission1".toList
          ⟨[("solution.py".toList, [])], some []⟩])]⟩) 1 1
      [(compileErrName, [5])]
      = (none, some ⟨some [],
          some [("1.in".toList, []), ("2.in".toList, [])],
          some [("1.out".toList, []), ("2.out".toList, [])],
          some (insertName
            [("user1".toList, [UserEntry.dirE "submission1".toList
              ⟨[("solution.py".toList, [])], some []⟩])]
            (userPfx ++ natToDigits 1)
            (setSubDir [UserEntry.dirE "submission1".toList
                ⟨[("solution.py".toList, [])], some []⟩]
              (submissionPfx ++ natToDigits 1)
              ⟨[("solution.py".toList, [])], some [(compileErrName, [5])]⟩))⟩) :=
  c6_compile_error_shortcut (some []) _ _ _ 1 1 _ _ [5] (by decide) (by decide)

/-! ### Claim C9 -/

/-- C9: when the task directory exists but the solution file's extension is
empty or not in the allow-list, `CreateUserSubmission` returns the
corresponding error only after ensuring the `submissions/` directory and the
`submissions/user{uid}/` directory exist — the final state is the input state
with exactly those two directories ensured (the user directory's entries are
unchanged, so no `submission{n}` directory and no solution file is created) —
and in particular when the `submissions/` directory was absent the state is
*not* left unchanged. -/
theorem c9_error_after_dir_creation (allowed : List Name) (de : Option Bytes)
    (inp outp : Option Dir) (subsOpt : Option (List (Name × UserDir)))
    (uid : Nat) (file : Bytes) (fn : Name)
    (hbad : lowerName (extensionOf fn) = [] ∨
      allowed.contains (lowerName (extensionOf fn)) = false) :
    CreateUserSubmission allowed (some ⟨de, inp, outp, subsOpt⟩) uid file fn
      = (some (if lowerName (extensionOf fn) = [] then SubmitErr.noExtension
            else SubmitErr.extensionNotAllowed (lowerName (extensionOf fn))),
        some ⟨de, inp, outp,
          some (insertName (subsOpt.getD []) (userPfx ++ natToDigits uid)
            ((lookupName (subsOpt.getD []) (userPfx ++ natToDigits uid)).getD []))⟩)
    ∧ (subsOpt = none →
        (CreateUserSubmission allowed (some ⟨de, inp, outp, subsOpt⟩) uid file fn).2
          ≠ some ⟨de, inp, outp, subsOpt⟩) := by
  by_cases hext : lowerName (extensionOf fn) = []
  · constructor
    · simp [CreateUserSubmission, hext]
    · intro hnone
      subst hnone
      simp [CreateUserSubmission, hext, insertName]
  · rcases hbad with hbad | hcont
    · exact absurd hbad hext
    · have hmem : lowerName (extensionOf fn) ∉ allowed := by simpa using hcont
      constructor
      · simp [CreateUserSubmission, hext, hmem]
      · intro hnone
        subst hnone
        simp [CreateUserSubmission, hext, hmem, insertName]

/-- Witness for C9 at a concrete input: fresh task, no submissions yet,
disallowed extension `.cpp`. -/
theorem c9_witness :
    CreateUserSubmission [".py".toList] (some ⟨some [], some [], some [], none⟩)
        1 [3] "solution.cpp".toList
      = (some (if lowerName (extensionOf "solution.cpp".toList) = []
            then SubmitErr.noExtension
            else SubmitErr.extensionNotAllowed
              (lowerName (extensionOf "solution.cpp".toList))),
        some ⟨some [], some [], some [],
          some (insertName ((none : Option (List (Name × UserDir))).getD [])
            (userPfx ++ natToDigits 1)
            ((lookupName ((none : Option (List (Name × UserDir))).getD [])
              (userPfx ++ natToDigits 1)).getD []))⟩)
    ∧ ((none : Option (List (Name × UserDir))) = none →
        (CreateUserSubmission [".py".toList]
          (some ⟨some [], some [], some [], none⟩) 1 [3] "solution.cpp".toList).2
          ≠ some ⟨some [], some [], some [], none⟩) :=
  c9_error_after_dir_creation [".py".toList] (some []) (some []) (some []) none
    1 [3] "solution.cpp".toList (Or.inr (by decide))

/-! ### Association-list and store-loop lemmas (shared) -/

theorem insertName_ne_nil {α : Type} (l : List (Name × α)) (k : Name) (v : α) :
    insertName l k v ≠ [] := by
  cases l with
  | nil => simp [insertName]
  | cons p rest =>
    obtain ⟨k', v'⟩ := p
    unfold insertName
    split <;> simp

theorem lookup_insert_self {α : Type} (l : List (Name × α)) (k : Name) (v : α) :
    lookupName (insertName l k v) k = some v := by
  induction l with
  | nil => simp [insertName, lookupName]
  | cons p rest ih =>
    obtain ⟨k', v'⟩ := p
    by_cases h : k' = k
    · simp [insertName, lookupName, h]
    · simp [insertName, lookupName, h, ih]

theorem findSubDir_setSubDir (u : UserDir) (nm : Name) (s : SubmissionDir) :
    findSubDir (setSubDir u nm s) nm = some s := by
  induction u with
  | nil => simp [setSubDir, findSubDir]
  | cons e rest ih =>
    cases e with
    | dirE n s' =>
      by_cases h : n = nm
      · simp [setSubDir, findSubDir, h]
      · simp [setSubDir, findSubDir, h, ih]
    | fileE n c => simp [setSubDir, findSubDir, ih]

theorem storeLoop_ne_nil (e : List Nat) (l : List (Name × Bytes))
    (seen : List Nat) (cur : Dir)
    (h1 : (storeLoop e l seen cur).1 = none) (h2 : l ≠ [] ∨ cur ≠ []) :
    (storeLoop e l seen cur).2 ≠ [] := by
  induction l generalizing seen cur with
  | nil =>
    rcases h2 with h2 | h2
    · exact absurd rfl h2
    · exact h2
  | cons p rest ih =>
    obtain ⟨nm, c⟩ := p
    rcases hp : parseNum outSuffix (baseName nm) with _ | num
    · simp [storeLoop, hp] at h1
    · by_cases hseen : num ∈ seen
      · simp [storeLoop, hp, hseen] at h1
      · by_cases hexp : num ∈ e
        · have hrec :
              storeLoop e ((nm, c) :: rest) seen cur
                = storeLoop e rest (seen ++ [num]) (insertName cur (baseName nm) c) := by
            simp [storeLoop, hp, hseen, hexp]
          rw [hrec] at h1 ⊢
          exact ih _ _ h1 (Or.inr (insertName_ne_nil _ _ _))
        · simp [storeLoop, hp, hseen, hexp] at h1

theorem storeMain_success (td : TaskDir) (expected : Dir)
    (subs : List (Name × UserDir)) (uname : Name) (userDir : UserDir)
    (sname : Name) (sub : SubmissionDir) (outs : List (Name × Bytes))
    (h : (storeMain td expected subs uname userDir sname sub outs).1 = none)
    (hne : outs ≠ []) :
    ∃ cur, cur ≠ [] ∧
      storeMain td expected subs uname userDir sname sub outs
        = (none, some (updateSub td subs uname userDir sname
            { sub with output := some cur })) := by
  by_cases hc : outs.length ≠ (expectedOutputData expected).2
  · simp [storeMain, hc] at h
  · have h' : (storeLoop (expectedOutputData expected).1 outs [] []).1 = none := by
      simpa [storeMain, hc] using h
    refine ⟨(storeLoop (expectedOutputData expected).1 outs [] []).2,
      storeLoop_ne_nil _ _ _ _ h' (Or.inl hne), ?_⟩
    simp [storeMain, hc, h']

theorem storeCore_success (td : TaskDir) (expected : Dir)
    (subs : List (Name × UserDir)) (uname : Name) (userDir : UserDir)
    (sname : Name) (sub : SubmissionDir) (outs : List (Name × Bytes))
    (h : (storeCore td expected subs uname userDir sname sub outs).1 = none)
    (hne : outs ≠ []) :
    ∃ cur, cur ≠ [] ∧
      storeCore td expected subs uname userDir sname sub outs
        = (none, some (updateSub td subs uname userDir sname
            { sub with output := some cur })) := by
  rcases outs with _ | ⟨⟨nm, c⟩, rest⟩
  · exact absurd rfl hne
  · rcases rest with _ | ⟨y, rest'⟩
    · by_cases hnm : nm = compileErrName
      · subst hnm
        refine ⟨[(compileErrName, c)], by simp, ?_⟩
        simp [storeCore, insertName]
      · have h' := h
        rw [show storeCore td expected subs uname userDir sname sub [(nm, c)]
            = storeMain td expected subs uname userDir sname sub [(nm, c)] from by
          simp [storeCore, hnm]] at h' ⊢
        exact storeMain_success _ _ _ _ _ _ _ _ h' (by simp)
    · have h' := h
      rw [show storeCore td expected subs uname userDir sname sub
            ((nm, c) :: y :: rest')
          = storeMain td expected subs uname userDir sname sub
            ((nm, c) :: y :: rest') from rfl] at h' ⊢
      exact storeMain_success _ _ _ _ _ _ _ _ h' (by simp)

/-! ### Claim C4 -/

/-- C4 (counterexample): the "storing outputs twice yields success then
OutputsAlreadyStored" part fails in the degenerate case of a task with zero
expected outputs (`td0`) and an empty outputs map: the first call succeeds
writing nothing, leaving the submission's `output/` directory empty, and the
second call *also succeeds* instead of returning the outputs-already-stored
error. -/
theorem c4_counterexample :
    (StoreUserOutputs (some td0) 1 1 []).1 = none ∧
    (StoreUserOutputs (StoreUserOutputs (some td0) 1 1 []).2 1 1 []).1 = none ∧
    (StoreUserOutputs (StoreUserOutputs (some td0) 1 1 []).2 1 1 []).1
      ≠ some .outputsAlreadyStored := by
  refine ⟨by decide, by decide, by decide⟩

/-- C4 (amended): (1) for every submission whose `output/` directory already
contains at least one entry, `StoreUserOutputs` returns the
outputs-already-stored error and leaves the entire state unchanged; and (2)
storing outputs twice for the same submission with a *non-empty* outputs map
on the first call yields success then outputs-already-stored, with the state
produced by the first call (its files included) left intact by the second. -/
theorem c4_amended_write_once :
    (∀ (de : Option Bytes) (inp : Option Dir) (expected : Dir)
      (subs : List (Name × UserDir)) (uid n : Nat) (outs : List (Name × Bytes))
      (userDir : UserDir) (sub : SubmissionDir) (l : Dir),
      lookupName subs (userPfx ++ natToDigits uid) = some userDir →
      findSubDir userDir (submissionPfx ++ natToDigits n) = some sub →
      sub.output = some l → l ≠ [] →
      StoreUserOutputs (some ⟨de, inp, some expected, some subs⟩) uid n outs
        = (some .outputsAlreadyStored, some ⟨de, inp, some expected, some subs⟩)) ∧
    (∀ (st : Option TaskDir) (uid n : Nat) (outs1 outs2 : List (Name × Bytes)),
      (StoreUserOutputs st uid n outs1).1 = none → outs1 ≠ [] →
      StoreUserOutputs (StoreUserOutputs st uid n outs1).2 uid n outs2
        = (some .outputsAlreadyStored, (StoreUserOutputs st uid n outs1).2)) := by
  constructor
  · intro de inp expected subs uid n outs userDir sub l hu hs ho hl
    have hpos : 0 < l.length := List.length_pos.mpr hl
    simp [StoreUserOutputs, hu, hs, ho, hpos]
  · intro st uid n outs1 outs2 h1 hne
    rcases st with _ | td
    · simp [StoreUserOutputs] at h1
    obtain ⟨de, inp, outOpt, subsOpt⟩ := td
    rcases outOpt with _ | expected
    · simp [StoreUserOutputs] at h1
    rcases subsOpt with _ | subs
    · simp [StoreUserOutputs] at h1
    rcases hu : lookupName subs (userPfx ++ natToDigits uid) with _ | userDir
    · simp [StoreUserOutputs, hu] at h1
    rcases hs : findSubDir userDir (submissionPfx ++ natToDigits n) with _ | sub
    · by_cases hf : hasFileEntry userDir (submissionPfx ++ natToDigits n) = true
      · simp [StoreUserOutputs, hu, hs, hf] at h1
      · simp [StoreUserOutputs, hu, hs, hf] at h1
    rcases hso : sub.output with _ | entries
    · -- output directory absent: it is created, then storeCore runs
      have h1' : (storeCore ⟨de, inp, some expected, some subs⟩ expected subs
          (userPfx ++ natToDigits uid) userDir (submissionPfx ++ natToDigits n)
          { sub with output := some [] } outs1).1 = none := by
        simpa [StoreUserOutputs, hu, hs, hso] using h1
      obtain ⟨cur, hcne, heq⟩ := storeCore_success _ _ _ _ _ _ _ _ h1' hne
      have hres : (StoreUserOutputs (some ⟨de, inp, some expected, some subs⟩)
          uid n outs1).2
          = some (updateSub ⟨de, inp, some expected, some subs⟩ subs
              (userPfx ++ natToDigits uid) userDir
              (submissionPfx ++ natToDigits n) ⟨sub.files, some cur⟩) := by
        simp [StoreUserOutputs, hu, hs, hso, heq]
      rw [hres]
      have hpos : 0 < cur.length := List.length_pos.mpr hcne
      simp [StoreUserOutputs, updateSub, lookup_insert_self,
        findSubDir_setSubDir, hpos]
    · rcases entries with _ | ⟨p, es⟩
      · -- output directory exists and is empty
        have h1' : (storeCore ⟨de, inp, some expected, some subs⟩ expected subs
            (userPfx ++ natToDigits uid) userDir (submissionPfx ++ natToDigits n)
            sub outs1).1 = none := by
          simpa [StoreUserOutputs, hu, hs, hso] using h1
        obtain ⟨cur, hcne, heq⟩ := storeCore_success _ _ _ _ _ _ _ _ h1' hne
        have hres : (StoreUserOutputs (some ⟨de, inp, some expected, some subs⟩)
            uid n outs1).2
            = some (updateSub ⟨de, inp, some expected, some subs⟩ subs
                (userPfx ++ natToDigits uid) userDir
                (submissionPfx ++ natToDigits n) ⟨sub.files, some cur⟩) := by
          simp [StoreUserOutputs, hu, hs, hso, heq]
        rw [hres]
        have hpos : 0 < cur.length := List.length_pos.mpr hcne
        simp [StoreUserOutputs, updateSub, lookup_insert_self,
          findSubDir_setSubDir, hpos]
      · -- output directory already has an entry: the first call cannot succeed
        simp [StoreUserOutputs, hu, hs, hso] at h1

/-- Witness for C4's amended theorem: part (1) at a concrete state whose
submission already holds `1.out`; part (2) on the `td2` scenario with a
non-empty first outputs map (the compile-error shortcut). -/
theorem c4_witness :
    (StoreUserOutputs (some ⟨some [],
        some [("1.in".toList, []), ("2.in".toList, [])],
        some [("1.out".toList, []), ("2.out".toList, [])],
        some [("user1".toList, [UserEntry.dirE "submission1".toList
          ⟨[("solution.py".toList, [])], some [("1.out".toList, [7])]⟩])]⟩)
        1 1 [("9.out".toList, [0])]
      = (some .outputsAlreadyStored, some ⟨some [],
        some [("1.in".toList, []), ("2.in".toList, [])],
        some [("1.out".toList, []), ("2.out".toList, [])],
        some [("user1".toList, [UserEntry.dirE "submission1".toList
          ⟨[("solution.py".toList, [])], some [("1.out".toList, [7])]⟩])]⟩)) ∧
    (StoreUserOutputs
        (StoreUserOutputs (some td2) 1 1 [(compileErrName, [5])]).2 1 1
        [("1.out".toList, [9]), ("2.out".toList, [9])]
      = (some .outputsAlreadyStored,
        (StoreUserOutputs (some td2) 1 1 [(compileErrName, [5])]).2)) :=
  ⟨c4_amended_write_once.1 (some [])
      (some [("1.in".toList, []), ("2.in".toList, [])])
      [("1.out".toList, []), ("2.out".toList, [])]
      [("user1".toList, [UserEntry.dirE "submission1".toList
        ⟨[("solution.py".toList, [])], some [("1.out".toList, [7])]⟩])]
      1 1 [("9.out".toList, [0])]
      [UserEntry.dirE "submission1".toList
        ⟨[("solution.py".toList, [])], some [("1.out".toList, [7])]⟩]
      ⟨[("solution.py".toList, [])], some [("1.out".toList, [7])]⟩
      [("1.out".toList, [7])]
      (by decide) (by decide) (by decide) (by decide),
    c4_amended_write_once.2 (some td2) 1 1 [(compileErrName, [5])]
      [("1.out".toList, [9]), ("2.out".toList, [9])] (by decide) (by decide)⟩

/-! ### Submission-numbering helpers and lemmas -/

theorem isPrefixOf_append_self {α : Type} [BEq α] [LawfulBEq α] (p l : List α) :
    p.isPrefixOf (p ++ l) = true := by
  induction p with
  | nil => simp [List.isPrefixOf]
  | cons a as ih => simp [List.isPrefixOf, ih]

theorem insertName_nil {α : Type} (k : Name) (v : α) :
    insertName [] k v = [(k, v)] := rfl

theorem insert_insert {α : Type} (l : List (Name × α)) (k : Name) (v w : α) :
    insertName (insertName l k v) k w = insertName l k w := by
  induction l with
  | nil => simp [insertName]
  | cons p rest ih =>
    obtain ⟨k', v'⟩ := p
    by_cases h : k' = k
    · simp [insertName, h]
    · simp [insertName, h, ih]

theorem setSubDir_of_find_none (u : UserDir) (nm : Name) (s : SubmissionDir)
    (h : findSubDir u nm = none) : setSubDir u nm s = u ++ [.dirE nm s] := by
  induction u with
  | nil => simp [setSubDir]
  | cons e rest ih =>
    cases e with
    | dirE n s' =>
      by_cases hn : n = nm
      · simp [findSubDir, hn] at h
      · simp only [findSubDir, hn, if_false] at h
        simp [setSubDir, hn, ih h]
    | fileE n c =>
      simp only [findSubDir] at h
      simp [setSubDir, ih h]

/-! ### Claim C5 -/

/-- C5: (1) whenever `CreateUserSubmission` succeeds on an existing task with
an allowed solution extension, the submission directory it creates is named
`submission{n}` with `n = 1 + count(existing directories with name prefix
"submission" in the user's directory)`, appended to the user's directory with
an empty `output/` directory and the solution file; (2) hence three
sequential successful submissions for the same `(taskID, userID)` starting
from an absent (empty) user directory create `submission1`, `submission2`,
`submission3` in order. -/
theorem c5_submission_numbering :
    (∀ (allowed : List Name) (de : Option Bytes) (inp outp : Option Dir)
      (subsOpt : Option (List (Name × UserDir))) (uid : Nat) (file : Bytes)
      (fn : Name),
      lowerName (extensionOf fn) ≠ [] →
      lowerName (extensionOf fn) ∈ allowed →
      hasFileEntry (userDirIn subsOpt uid) (nextSname (userDirIn subsOpt uid))
        = false →
      findSubDir (userDirIn subsOpt uid) (nextSname (userDirIn subsOpt uid))
        = none →
      CreateUserSubmission allowed (some ⟨de, inp, outp, subsOpt⟩) uid file fn
        = (none, some ⟨de, inp, outp,
            some (insertName (subsOpt.getD []) (unameOf uid)
              (userDirIn subsOpt uid ++
                [.dirE (nextSname (userDirIn subsOpt uid))
                  ⟨[(solutionBase ++ lowerName (extensionOf fn), file)],
                    some []⟩]))⟩)) ∧
    (∀ (allowed : List Name) (de : Option Bytes) (inp outp : Option Dir)
      (subsOpt : Option (List (Name × UserDir))) (uid : Nat)
      (f1 f2 f3 : Bytes) (fn : Name),
      lowerName (extensionOf fn) ≠ [] →
      lowerName (extensionOf fn) ∈ allowed →
      lookupName (subsOpt.getD []) (unameOf uid) = none →
      (CreateUserSubmission allowed (some ⟨de, inp, outp, subsOpt⟩) uid f1 fn).1
        = none ∧
      (CreateUserSubmission allowed
        (CreateUserSubmission allowed (some ⟨de, inp, outp, subsOpt⟩)
          uid f1 fn).2 uid f2 fn).1 = none ∧
      CreateUserSubmission allowed
        (CreateUserSubmission allowed
          (CreateUserSubmission allowed (some ⟨de, inp, outp, subsOpt⟩)
            uid f1 fn).2 uid f2 fn).2 uid f3 fn
        = (none, some ⟨de, inp, outp,
            some (insertName (subsOpt.getD []) (unameOf uid)
              [.dirE (submissionPfx ++ natToDigits 1)
                ⟨[(solutionBase ++ lowerName (extensionOf fn), f1)], some []⟩,
               .dirE (submissionPfx ++ natToDigits 2)
                ⟨[(solutionBase ++ lowerName (extensionOf fn), f2)], some []⟩,
               .dirE (submissionPfx ++ natToDigits 3)
                ⟨[(solutionBase ++ lowerName (extensionOf fn), f3)], some []⟩])⟩)) := by
  constructor
  · intro allowed de inp outp subsOpt uid file fn hext hall hnf hfs
    simp only [userDirIn, nextSname, unameOf] at hnf hfs ⊢
    simp [CreateUserSubmission, hext, hall, hnf, hfs,
      setSubDir_of_find_none _ _ _ hfs, insert_insert, insertName_nil]
  · intro allowed de inp outp subsOpt uid f1 f2 f3 fn hext hall huser
    simp only [unameOf] at huser
    have hne12 : submissionPfx ++ natToDigits 1 ≠ submissionPfx ++ natToDigits 2 := by
      decide
    have hne13 : submissionPfx ++ natToDigits 1 ≠ submissionPfx ++ natToDigits 3 := by
      decide
    have hne23 : submissionPfx ++ natToDigits 2 ≠ submissionPfx ++ natToDigits 3 := by
      decide
    have h1 : CreateUserSubmission allowed (some ⟨de, inp, outp, subsOpt⟩) uid f1 fn
        = (none, some ⟨de, inp, outp,
            some (insertName (subsOpt.getD []) (userPfx ++ natToDigits uid)
              [.dirE (submissionPfx ++ natToDigits 1)
                ⟨[(solutionBase ++ lowerName (extensionOf fn), f1)], some []⟩])⟩) := by
      simp [CreateUserSubmission, huser, hext, hall, hasFileEntry, findSubDir,
        setSubDir, countSubmissions, insert_insert, insertName_nil]
    have h2 : CreateUserSubmission allowed
        (some ⟨de, inp, outp,
          some (insertName (subsOpt.getD []) (userPfx ++ natToDigits uid)
            [.dirE (submissionPfx ++ natToDigits 1)
              ⟨[(solutionBase ++ lowerName (extensionOf fn), f1)], some []⟩])⟩)
        uid f2 fn
        = (none, some ⟨de, inp, outp,
            some (insertName (subsOpt.getD []) (userPfx ++ natToDigits uid)
              [.dirE (submissionPfx ++ natToDigits 1)
                ⟨[(solutionBase ++ lowerName (extensionOf fn), f1)], some []⟩,
               .dirE (submissionPfx ++ natToDigits 2)
                ⟨[(solutionBase ++ lowerName (extensionOf fn), f2)], some []⟩])⟩) := by
      simp [CreateUserSubmission, lookup_insert_self, hext, hall, hasFileEntry,
        findSubDir, hne12, setSubDir, countSubmissions, insert_insert,
        insertName_nil, isPrefixOf_append_self]
    have h3 : CreateUserSubmission allowed
        (some ⟨de, inp, outp,
          some (insertName (subsOpt.getD []) (userPfx ++ natToDigits uid)
            [.dirE (submissionPfx ++ natToDigits 1)
              ⟨[(solutionBase ++ lowerName (extensionOf fn), f1)], some []⟩,
             .dirE (submissionPfx ++ natToDigits 2)
              ⟨[(solutionBase ++ lowerName (extensionOf fn), f2)], some []⟩])⟩)
        uid f3 fn
        = (none, some ⟨de, inp, outp,
            some (insertName (subsOpt.getD []) (userPfx ++ natToDigits uid)
              [.dirE (submissionPfx ++ natToDigits 1)
                ⟨[(solutionBase ++ lowerName (extensionOf fn), f1)], some []⟩,
               .dirE (submissionPfx ++ natToDigits 2)
                ⟨[(solutionBase ++ lowerName (extensionOf fn), f2)], some []⟩,
               .dirE (submissionPfx ++ natToDigits 3)
                ⟨[(solutionBase ++ lowerName (extensionOf fn), f3)], some []⟩])⟩) := by
      simp [CreateUserSubmission, lookup_insert_self, hext, hall, hasFileEntry,
        findSubDir, hne13, hne23, setSubDir, countSubmissions, insert_insert,
        insertName_nil, isPrefixOf_append_self]
    simp only [unameOf]
    refine ⟨by simp [h1], by simp [h1, h2], by simp [h1, h2, h3]⟩

/-- Witness for C5 at a concrete input (fresh task, user 1, `.py` allowed). -/
theorem c5_witness :
    (CreateUserSubmission [".py".toList] (some ⟨some [], some [], some [], none⟩)
        1 [3] "solution.py".toList
      = (none, some ⟨some [], some [], some [],
          some (insertName ((none : Option (List (Name × UserDir))).getD [])
            (unameOf 1)
            (userDirIn none 1 ++
              [.dirE (nextSname (userDirIn none 1))
                ⟨[(solutionBase ++ lowerName (extensionOf "solution.py".toList),
                  [3])], some []⟩]))⟩)) ∧
    ((CreateUserSubmission [".py".toList] (some ⟨some [], some [], some [], none⟩)
        1 [1] "solution.py".toList).1 = none ∧
      (CreateUserSubmission [".py".toList]
        (CreateUserSubmission [".py".toList]
          (some ⟨some [], some [], some [], none⟩) 1 [1] "solution.py".toList).2
        1 [2] "solution.py".toList).1 = none ∧
      CreateUserSubmission [".py".toList]
        (CreateUserSubmission [".py".toList]
          (CreateUserSubmission [".py".toList]
            (some ⟨some [], some [], some [], none⟩) 1 [1] "solution.py".toList).2
          1 [2] "solution.py".toList).2 1 [3] "solution.py".toList
        = (none, some ⟨some [], some [], some [],
            some (insertName ((none : Option (List (Name × UserDir))).getD [])
              (unameOf 1)
              [.dirE (submissionPfx ++ natToDigits 1)
                ⟨[(solutionBase ++ lowerName (extensionOf "solution.py".toList),
                  [1])], some []⟩,
               .dirE (submissionPfx ++ natToDigits 2)
                ⟨[(solutionBase ++ lowerName (extensionOf "solution.py".toList),
                  [2])], some []⟩,
               .dirE (submissionPfx ++ natToDigits 3)
                ⟨[(solutionBase ++ lowerName (extensionOf "solution.py".toList),
                  [3])], some []⟩])⟩)) :=
  ⟨c5_submission_numbering.1 [".py".toList] (some []) (some []) (some []) none
      1 [3] "solution.py".toList (by decide) (by decide) (by decide) (by decide),
    c5_submission_numbering.2 [".py".toList] (some []) (some []) (some []) none
      1 [1] [2] [3] "solution.py".toList (by decide) (by decide) (by decide)⟩

/-! ### Name lemmas for the round-trip claim (C3) -/

theorem isPrefixOf_append_both {α : Type} [BEq α] [LawfulBEq α]
    (p a c : List α) : (p ++ a).isPrefixOf (p ++ c) = a.isPrefixOf c := by
  induction p with
  | nil => rfl
  | cons x xs ih => simp [List.isPrefixOf, ih]

theorem isPrefixOf_cons_ne {α : Type} [BEq α] (a b : α) (as bs : List α)
    (h : (a == b) = false) : (a :: as).isPrefixOf (b :: bs) = false := by
  simp [List.isPrefixOf, h]

/-- `src/input/` is not a prefix of any `src/output/...` path. -/
theorem inputPfx_not_of_outputPfx (l : Name) :
    inputPfx.isPrefixOf (outputPfx ++ l) = false := by
  have h1 : inputPfx = "src/".toList ++ ('i' :: "nput/".toList) := by decide
  have h2 : outputPfx = "src/".toList ++ ('o' :: "utput/".toList) := by decide
  rw [h1, h2, List.append_assoc, isPrefixOf_append_both, List.cons_append]
  exact isPrefixOf_cons_ne _ _ _ _ (by decide)

theorem no_slash_digits_suffix (k : Nat) (suf : Name)
    (hsuf : ∀ c ∈ suf, c ≠ '/') : ∀ c ∈ natToDigits k ++ suf, c ≠ '/' := by
  intro c hc
  rcases List.mem_append.mp hc with hc | hc
  · exact natToDigits_ne_slash k c hc
  · exact hsuf c hc

theorem baseName_inputName (k : Nat) :
    baseName (inputPfx ++ (natToDigits k ++ inSuffix))
      = natToDigits k ++ inSuffix := by
  have h1 : inputPfx = "src/input".toList ++ ['/'] := by decide
  rw [h1, List.append_assoc]
  exact baseName_sep _ _ (no_slash_digits_suffix k inSuffix (by decide))

theorem baseName_outputName (k : Nat) :
    baseName (outputPfx ++ (natToDigits k ++ outSuffix))
      = natToDigits k ++ outSuffix := by
  have h1 : outputPfx = "src/output".toList ++ ['/'] := by decide
  rw [h1, List.append_assoc]
  exact baseName_sep _ _ (no_slash_digits_suffix k outSuffix (by decide))

theorem keys_ne (a b : Nat) (suf : Name) (h : a ≠ b) :
    natToDigits a ++ suf ≠ natToDigits b ++ suf := by
  intro he
  exact h (natToDigits_injective a b (List.append_cancel_right he))

theorem lookupName_none_of_forall {α : Type} (l : List (Name × α)) (k : Name)
    (h : ∀ p ∈ l, p.1 ≠ k) : lookupName l k = none := by
  induction l with
  | nil => rfl
  | cons p rest ih =>
    obtain ⟨k', v⟩ := p
    have hk : k' ≠ k := h (k', v) (by simp)
    simp only [lookupName, if_neg hk]
    exact ih fun q hq => h q (by simp [hq])

theorem insert_of_lookup_none {α : Type} (l : List (Name × α)) (k : Name)
    (v : α) (h : lookupName l k = none) : insertName l k v = l ++ [(k, v)] := by
  induction l with
  | nil => rfl
  | cons p rest ih =>
    obtain ⟨k', v'⟩ := p
    by_cases hk : k' = k
    · simp [lookupName, hk] at h
    · simp only [lookupName, if_neg hk] at h
      simp [insertName, hk, ih h]

/-! ### Per-entry evaluation of the validation and save loops (C3) -/

theorem validateLoop_input_step (k : Nat) (c : Bytes)
    (rest : List (Name × Bytes)) (ins outs : List Nat) (hasD : Bool)
    (hmem : k ∉ ins) :
    validateLoop ((inputPfx ++ (natToDigits k ++ inSuffix), c) :: rest)
        ins outs hasD
      = validateLoop rest (ins ++ [k]) outs hasD := by
  have hpfx := isPrefixOf_append_self (α := Char) inputPfx
    (natToDigits k ++ inSuffix)
  simp [validateLoop, hpfx, baseName_inputName, parseNum_natToDigits, hmem]

theorem validateLoop_output_step (k : Nat) (c : Bytes)
    (rest : List (Name × Bytes)) (ins outs : List Nat) (hasD : Bool)
    (hmem : k ∉ outs) :
    validateLoop ((outputPfx ++ (natToDigits k ++ outSuffix), c) :: rest)
        ins outs hasD
      = validateLoop rest ins (outs ++ [k]) hasD := by
  have hpfx := isPrefixOf_append_self (α := Char) outputPfx
    (natToDigits k ++ outSuffix)
  simp [validateLoop, inputPfx_not_of_outputPfx, hpfx, baseName_outputName,
    parseNum_natToDigits, hmem]

theorem validateLoop_desc_step (d : Bytes) (rest : List (Name × Bytes))
    (ins outs : List Nat) (hasD : Bool) :
    validateLoop ((descKey, d) :: rest) ins outs hasD
      = validateLoop rest ins outs true := by
  have e1 : inputPfx.isPrefixOf descKey = false := by decide
  have e2 : outputPfx.isPrefixOf descKey = false := by decide
  have e3 : baseName descKey = descName := by decide
  have e4 : extensionOf descKey = pdfExt := by decide
  simp [validateLoop, e1, e2, e3, e4]

theorem saveFiles_input_step (k : Nat) (c : Bytes)
    (rest : List (Name × Bytes)) (accIn accOut : Dir)
    (hlk : lookupName accIn (natToDigits k ++ inSuffix) = none) :
    saveFiles accIn accOut
        ((inputPfx ++ (natToDigits k ++ inSuffix), c) :: rest)
      = saveFiles (accIn ++ [(natToDigits k ++ inSuffix, c)]) accOut rest := by
  have hpfx := isPrefixOf_append_self (α := Char) inputPfx
    (natToDigits k ++ inSuffix)
  simp [saveFiles, hpfx, baseName_inputName, insert_of_lookup_none _ _ _ hlk]

theorem saveFiles_output_step (k : Nat) (c : Bytes)
    (rest : List (Name × Bytes)) (accIn accOut : Dir)
    (hlk : lookupName accOut (natToDigits k ++ outSuffix) = none) :
    saveFiles accIn accOut
        ((outputPfx ++ (natToDigits k ++ outSuffix), c) :: rest)
      = saveFiles accIn (accOut ++ [(natToDigits k ++ outSuffix, c)]) rest := by
  have hpfx := isPrefixOf_append_self (α := Char) outputPfx
    (natToDigits k ++ outSuffix)
  simp [saveFiles, inputPfx_not_of_outputPfx, hpfx, baseName_outputName,
    insert_of_lookup_none _ _ _ hlk]

theorem saveFiles_desc_step (d : Bytes) (rest : List (Name × Bytes))
    (accIn accOut : Dir) :
    saveFiles accIn accOut ((descKey, d) :: rest)
      = saveFiles accIn accOut rest := by
  have e1 : inputPfx.isPrefixOf descKey = false := by decide
  have e2 : outputPfx.isPrefixOf descKey = false := by decide
  simp [saveFiles, e1, e2]

/-! ### Segment lemmas: the loops over `{1..N}` input/output families (C3) -/

theorem range1_concat (s : Nat) :
    List.range' 1 (s + 1) = List.range' 1 s ++ [s + 1] := by
  have h := @List.range'_concat 1 1 s
  simpa [Nat.add_comm] using h

theorem not_mem_range1 (s : Nat) : (s + 1) ∉ List.range' 1 s := by
  intro h
  rw [List.mem_range'_1] at h
  omega

theorem validateLoop_inputs (ic : Nat → Bytes) (rest : List (Name × Bytes))
    (outs : List Nat) (hasD : Bool) : ∀ (n s : Nat),
    validateLoop
        (((List.range' (s + 1) n).map fun k =>
          (inputPfx ++ (natToDigits k ++ inSuffix), ic k)) ++ rest)
        (List.range' 1 s) outs hasD
      = validateLoop rest (List.range' 1 (s + n)) outs hasD := by
  intro n
  induction n with
  | zero => intro s; simp
  | succ m ih =>
    intro s
    rw [List.range'_succ (s + 1) m 1]
    simp only [List.map_cons, List.cons_append]
    rw [validateLoop_input_step (s + 1) _ _ _ _ _ (not_mem_range1 s),
      ← range1_concat s]
    have h2 := ih (s + 1)
    rw [show s + 1 + m = s + (m + 1) from by omega] at h2
    exact h2

theorem validateLoop_outputs (oc : Nat → Bytes) (rest : List (Name × Bytes))
    (ins : List Nat) (hasD : Bool) : ∀ (n s : Nat),
    validateLoop
        (((List.range' (s + 1) n).map fun k =>
          (outputPfx ++ (natToDigits k ++ outSuffix), oc k)) ++ rest)
        ins (List.range' 1 s) hasD
      = validateLoop rest ins (List.range' 1 (s + n)) hasD := by
  intro n
  induction n with
  | zero => intro s; simp
  | succ m ih =>
    intro s
    rw [List.range'_succ (s + 1) m 1]
    simp only [List.map_cons, List.cons_append]
    rw [validateLoop_output_step (s + 1) _ _ _ _ _ (not_mem_range1 s),
      ← range1_concat s]
    have h2 := ih (s + 1)
    rw [show s + 1 + m = s + (m + 1) from by omega] at h2
    exact h2

theorem lookup_numbered_none (f : Nat → Bytes) (suf : Name) (s k : Nat)
    (hk : ∀ m ∈ List.range' 1 s, m ≠ k) :
    lookupName ((List.range' 1 s).map fun m => (natToDigits m ++ suf, f m))
      (natToDigits k ++ suf) = none := by
  apply lookupName_none_of_forall
  intro p hp
  simp only [List.mem_map] at hp
  obtain ⟨m, hm, rfl⟩ := hp
  exact keys_ne m k suf (hk m hm)

theorem saveFiles_inputs (ic : Nat → Bytes) (rest : List (Name × Bytes))
    (accOut : Dir) : ∀ (n s : Nat),
    saveFiles ((List.range' 1 s).map fun m => (natToDigits m ++ inSuffix, ic m))
        accOut
        (((List.range' (s + 1) n).map fun k =>
          (inputPfx ++ (natToDigits k ++ inSuffix), ic k)) ++ rest)
      = saveFiles
          ((List.range' 1 (s + n)).map fun m => (natToDigits m ++ inSuffix, ic m))
          accOut rest := by
  intro n
  induction n with
  | zero => intro s; simp
  | succ m ih =>
    intro s
    rw [List.range'_succ (s + 1) m 1]
    simp only [List.map_cons, List.cons_append]
    rw [saveFiles_input_step (s + 1) _ _ _ _
      (lookup_numbered_none ic inSuffix s (s + 1)
        (fun m hm => by rw [List.mem_range'_1] at hm; omega))]
    rw [show ((List.range' 1 s).map fun m => (natToDigits m ++ inSuffix, ic m))
          ++ [(natToDigits (s + 1) ++ inSuffix, ic (s + 1))]
        = (List.range' 1 (s + 1)).map fun m => (natToDigits m ++ inSuffix, ic m)
      from by rw [range1_concat s, List.map_append]; rfl]
    have h2 := ih (s + 1)
    rw [show s + 1 + m = s + (m + 1) from by omega] at h2
    exact h2

theorem saveFiles_outputs (oc : Nat → Bytes) (rest : List (Name × Bytes))
    (accIn : Dir) : ∀ (n s : Nat),
    saveFiles accIn
        ((List.range' 1 s).map fun m => (natToDigits m ++ outSuffix, oc m))
        (((List.range' (s + 1) n).map fun k =>
          (outputPfx ++ (natToDigits k ++ outSuffix), oc k)) ++ rest)
      = saveFiles accIn
          ((List.range' 1 (s + n)).map fun m => (natToDigits m ++ outSuffix, oc m))
          rest := by
  intro n
  induction n with
  | zero => intro s; simp
  | succ m ih =>
    intro s
    rw [List.range'_succ (s + 1) m 1]
    simp only [List.map_cons, List.cons_append]
    rw [saveFiles_output_step (s + 1) _ _ _ _
      (lookup_numbered_none oc outSuffix s (s + 1)
        (fun m hm => by rw [List.mem_range'_1] at hm; omega))]
    rw [show ((List.range' 1 s).map fun m => (natToDigits m ++ outSuffix, oc m))
          ++ [(natToDigits (s + 1) ++ outSuffix, oc (s + 1))]
        = (List.range' 1 (s + 1)).map fun m => (natToDigits m ++ outSuffix, oc m)
      from by rw [range1_concat s, List.map_append]; rfl]
    have h2 := ih (s + 1)
    rw [show s + 1 + m = s + (m + 1) from by omega] at h2
    exact h2

theorem seqCheck_range (N : Nat) :
    seqCheck (List.range' 1 N) (List.range' 1 N) = none := by
  unfold seqCheck
  rw [if_pos]
  rw [List.length_range']
  simp only [List.all_eq_true, List.mem_range, Bool.and_eq_true]
  intro i hi
  constructor <;>
    · simp only [List.contains_iff_exists_mem_beq]
      exact ⟨i + 1, by rw [List.mem_range'_1]; omega, by simp⟩

/-! ### Claim C3 -/

theorem roundTrip_validate (N : Nat) (d : Bytes) (ic oc : Nat → Bytes) :
    validateFiles (roundTripFiles N d ic oc) = none := by
  unfold validateFiles roundTripFiles
  rw [validateLoop_desc_step]
  have hIn := validateLoop_inputs ic
    ((List.range' 1 N).map fun k =>
      (outputPfx ++ (natToDigits k ++ outSuffix), oc k)) [] true N 0
  simp only [Nat.zero_add] at hIn
  rw [show List.range' 1 0 = [] from rfl] at hIn
  rw [hIn]
  have hOut := validateLoop_outputs oc [] (List.range' 1 N) true N 0
  simp only [Nat.zero_add, List.append_nil] at hOut
  rw [show List.range' 1 0 = [] from rfl] at hOut
  rw [hOut]
  simp only [validateLoop]
  rw [List.length_range']
  simp [seqCheck_range]

theorem roundTrip_save (N : Nat) (d : Bytes) (ic oc : Nat → Bytes) :
    saveFiles [] [] (roundTripFiles N d ic oc)
      = ((List.range' 1 N).map fun k => (natToDigits k ++ inSuffix, ic k),
         (List.range' 1 N).map fun k => (natToDigits k ++ outSuffix, oc k)) := by
  unfold roundTripFiles
  rw [saveFiles_desc_step]
  have hIn := saveFiles_inputs ic
    ((List.range' 1 N).map fun k =>
      (outputPfx ++ (natToDigits k ++ outSuffix), oc k)) [] N 0
  simp only [Nat.zero_add] at hIn
  rw [show List.range' 1 0 = [] from rfl] at hIn
  simp only [List.map_nil] at hIn
  rw [hIn]
  have hOut := saveFiles_outputs oc []
    ((List.range' 1 N).map fun k => (natToDigits k ++ inSuffix, ic k)) N 0
  simp only [Nat.zero_add, List.append_nil] at hOut
  rw [show List.range' 1 0 = [] from rfl] at hOut
  simp only [List.map_nil] at hOut
  rw [hOut]
  rfl

/-- C3: for every `N ≥ 1` (the proof needs no lower bound, but the claim
states one) and every files map consisting of one description entry plus
inputs `src/input/{1..N}.in` and outputs `src/output/{1..N}.out` (with
arbitrary contents), `CreateTaskDirectory` on an absent task directory
succeeds — with either `overwrite` flag — and the resulting task directory
contains the description and *exactly* the files `1.in .. N.in` under
`src/input` and `1.out .. N.out` under `src/output`, with the uploaded
contents. -/
theorem c3_round_trip_numbering (N : Nat) (hN : 1 ≤ N) (d : Bytes)
    (ic oc : Nat → Bytes) (ow : Bool) :
    CreateTaskDirectory none (roundTripFiles N d ic oc) ow
      = ⟨none, some ⟨some d,
          some ((List.range' 1 N).map fun k => (natToDigits k ++ inSuffix, ic k)),
          some ((List.range' 1 N).map fun k => (natToDigits k ++ outSuffix, oc k)),
          none⟩, []⟩ := by
  have hdesc : lookupName (roundTripFiles N d ic oc) descKey = some d := by
    simp [roundTripFiles, lookupName]
  show createRest none (roundTripFiles N d ic oc) [] = _
  unfold createRest
  rw [roundTrip_validate]
  simp [hdesc, roundTrip_save]

/-- Witness for C3 at `N = 2`. -/
theorem c3_witness :
    1 ≤ 2 ∧
    CreateTaskDirectory none (roundTripFiles 2 [9] (fun _ => [1]) (fun _ => [2]))
        false
      = ⟨none, some ⟨some [9],
          some ((List.range' 1 2).map fun k =>
            (natToDigits k ++ inSuffix, (fun _ => ([1] : Bytes)) k)),
          some ((List.range' 1 2).map fun k =>
            (natToDigits k ++ outSuffix, (fun _ => ([2] : Bytes)) k)),
          none⟩, []⟩ :=
  ⟨by decide, c3_round_trip_numbering 2 (by decide) [9] (fun _ => [1])
    (fun _ => [2]) false⟩

end FileStorage



